import Mathlib

/-!
Shallow embedding of the filter engine and registry client of
`src/app.py` (repository Baldros/EnterpriseSearch), together with
theorems settling the claims made by the specification about them.

The table model mirrors a pandas `DataFrame` whose cells are all text
(the loader reads every CSV with `dtype=str`): a list of column names
and a list of rows, each row a list of optional strings where `none`
models a null/NaN cell.  Python `str(...)` applied to a NaN cell
yields the text `"nan"`, and `str.lower` is modelled on the basic
latin letters (none of the claims depend on non-ASCII lowercasing).
Search queries are treated as plain substrings (`pandas.Series.str.contains`
on metacharacter-free queries); no claim involves regex metacharacters.
-/

namespace EnterpriseSearch

/-- Python `str(cell)` on a text-or-NaN cell: `str(nan)` is the text `"nan"`. -/
def pyStr : Option String → String
  | none => "nan"
  | some s => s

/-- Python `str.lower`, character by character (basic latin letters). -/
def pyLower (s : String) : String :=
  String.mk (s.data.map Char.toLower)

/-- Boolean prefix test on character lists (helper for substring search). -/
def charsPrefixEq : List Char → List Char → Bool
  | [], _ => true
  | _ :: _, [] => false
  | a :: as, b :: bs => a == b && charsPrefixEq as bs

/-- Boolean substring test on character lists: does the haystack contain the needle? -/
def charsHasSub (needle : List Char) : List Char → Bool
  | [] => needle.isEmpty
  | b :: bs => charsPrefixEq needle (b :: bs) || charsHasSub needle bs

/-- Python `needle in hay` on strings (literal substring containment). -/
def pyContains (hay needle : String) : Bool :=
  charsHasSub needle.data hay.data

/-- A pandas `DataFrame` of all-text columns: column names plus rows of
optional string cells (`none` models NaN, as produced by `read_csv` with
`dtype=str` and by concatenation of files with differing headers). -/
structure Table where
  cols : List String
  rows : List (List (Option String))
deriving DecidableEq

/-- Position of column `c` in `df.columns`, `none` when `c not in df.columns`. -/
def colIdx (df : Table) (c : String) : Option Nat :=
  df.cols.findIdx? (fun x => x == c)

/-- Effect of `df[col] = df[col].astype(str).str.lower()` on one row:
cell `i` is replaced by the lowercase of its string form. -/
def lowerRowAt (i : Nat) (r : List (Option String)) : List (Option String) :=
  r.set i (some (pyLower (pyStr (r.getD i none))))

/-- Iterated `lowerRowAt`, one application per listed column position. -/
def lowerRowAts (ps : List Nat) (r : List (Option String)) : List (Option String) :=
  ps.foldl (fun r i => lowerRowAt i r) r

/-- `df[col] = df[col].astype(str).str.lower()` (app.py line 79 / 102):
rewrites column `i` of every row in place on the working copy. -/
def lowerCol (df : Table) (i : Nat) : Table :=
  { df with rows := df.rows.map (lowerRowAt i) }

/-- The dynamic `val` of one entry of `filtros` in `filter_data`
(app.py lines 63-87): Python `None`, a single string, or a
list/tuple/set of strings. -/
inductive FilterVal where
  | vnone : FilterVal
  | vstr (v : String) : FilterVal
  | vlist (vs : List String) : FilterVal
deriving DecidableEq

/-- The skip test of app.py lines 65-70: `None`, empty collection, or `""`. -/
def isEmptyFilter : FilterVal → Bool
  | .vnone => true
  | .vstr v => v == ""
  | .vlist vs => vs.isEmpty

/-- Row predicate of app.py lines 82-87, evaluated after the column has been
lowercased: `isin` of the lowercased constraint list, or equality with the
lowercased scalar.  A NaN cell compares unequal / is not a member (these
branches are unreachable after `astype(str)`, exactly as in the source). -/
def cellMatches : FilterVal → Option String → Bool
  | .vnone, _ => false
  | .vstr v, cell => cell == some (pyLower v)
  | .vlist vs, cell =>
    match cell with
    | some s => (vs.map pyLower).contains s
    | none => false

/-- One applied constraint (app.py lines 79-87): lowercase the column in
place, then keep the rows whose (now lowercased) cell matches. -/
def applyConstraint (df : Table) (i : Nat) (v : FilterVal) : Table :=
  let dfl := lowerCol df i
  { dfl with rows := dfl.rows.filter (fun r => cellMatches v (r.getD i none)) }

/-- The `for col, val in (filtros or {}).items()` loop of app.py lines 63-96.
Returns the working table plus a flag recording whether the early
`return df2` on an empty working set (lines 93-96) fired; when it fires the
remaining entries and the search step are never evaluated. -/
def filterSteps : Table → List (String × FilterVal) → Table × Bool
  | df, [] => (df, false)
  | df, (c, v) :: rest =>
    if isEmptyFilter v then filterSteps df rest
    else
      match colIdx df c with
      | none => filterSteps df rest
      | some i =>
        let df2 := applyConstraint df i v
        if df2.rows.isEmpty then (df2, true)
        else filterSteps df2 rest

/-- The optional text search of app.py lines 99-111: runs only when both
`column_for_search` and `query` are truthy (non-`None`, non-empty) and the
column exists; lowercases column and query, then keeps rows by equality
(exact) or substring containment (`contains`, with NaN non-matching). -/
def searchStep (df2 : Table) (column_for_search query : Option String)
    (exact_match : Bool) : Table :=
  match column_for_search, query with
  | some c, some q =>
    if c.isEmpty || q.isEmpty then df2
    else
      match colIdx df2 c with
      | none => df2
      | some i =>
        let ql := pyLower q
        let dfl := lowerCol df2 i
        if exact_match then
          { dfl with rows := dfl.rows.filter (fun r => r.getD i none == some ql) }
        else
          { dfl with rows := dfl.rows.filter (fun r =>
              match r.getD i none with
              | some s => pyContains s ql
              | none => false) }
  | _, _ => df2

/-- `filter_data` of app.py lines 44-118 (the `debug` parameter only prints a
trace and never changes the returned table, so it is omitted): run the filter
loop; on early exit return its table at once, otherwise run the search step. -/
def filter_data (df : Table) (filtros : List (String × FilterVal))
    (column_for_search : Option String) (query : Option String)
    (exact_match : Bool) : Table :=
  let p := filterSteps df filtros
  if p.2 then p.1 else searchStep p.1 column_for_search query exact_match

/-- A registry record: JSON-like mapping, modelled as key/value pairs. -/
abbrev RegistryRecord := List (String × String)

/-- Outcome of the `requests.get` call in `get_cnpj_data` (app.py line 163):
either an HTTP response with a status code and parsed body, or a transport
failure (timeout, network error), in which case `requests.get` raises. -/
inductive NetOutcome where
  | response (status : Nat) (body : RegistryRecord) : NetOutcome
  | transportError : NetOutcome
deriving DecidableEq

/-- `get_cnpj_data` of app.py lines 160-168, as a function of the network
outcome.  The value carries the returned record plus a flag recording whether
a user-visible warning (`st.error`) was emitted; `Except.error` models an
exception propagating out of the function (a transport failure raised by
`requests.get` is not caught inside `get_cnpj_data`). -/
def get_cnpj_data : NetOutcome → Except Unit (RegistryRecord × Bool)
  | .response status body =>
    if status = 200 then .ok (body, false) else .ok ([], true)
  | .transportError => .error ()

/-- The guarded call site of app.py lines 353-359: `get_cnpj_data` inside
`try/except`, with every exception caught, reported (`st.error`) and replaced
by the empty record. -/
def fetch_cnpj_guarded (o : NetOutcome) : RegistryRecord × Bool :=
  match get_cnpj_data o with
  | .ok rw => rw
  | .error _ => ([], true)

/-! ### Helper lemmas: characters and strings -/

theorem char_ofNat_toNat_small (n : Nat) (h : n < 0xd800) : (Char.ofNat n).toNat = n := by
  rw [Char.ofNat, dif_pos (Or.inl h)]
  rfl

theorem toLower_toNat (c : Char) (h : 65 ≤ c.toNat ∧ c.toNat ≤ 90) :
    (Char.toLower c).toNat = c.toNat + 32 := by
  rw [Char.toLower]
  simp only [ge_iff_le, h, and_true, true_and, if_true, if_pos]
  exact char_ofNat_toNat_small _ (by omega)

theorem toLower_eq_self (c : Char) (h : ¬(65 ≤ c.toNat ∧ c.toNat ≤ 90)) :
    Char.toLower c = c := by
  rw [Char.toLower]
  simp only [ge_iff_le]
  rw [if_neg h]

theorem toLower_idem (c : Char) : Char.toLower (Char.toLower c) = Char.toLower c := by
  by_cases h : 65 ≤ c.toNat ∧ c.toNat ≤ 90
  · have h2 := toLower_toNat c h
    apply toLower_eq_self
    omega
  · rw [toLower_eq_self c h, toLower_eq_self c h]

theorem pyLower_data (s : String) : (pyLower s).data = s.data.map Char.toLower := rfl

theorem pyLower_idem (s : String) : pyLower (pyLower s) = pyLower s := by
  unfold pyLower
  congr 1
  show (s.data.map Char.toLower).map Char.toLower = s.data.map Char.toLower
  rw [List.map_map]
  exact List.map_congr_left fun c _ => toLower_idem c

theorem pyLower_eq_empty_iff (s : String) : pyLower s = "" ↔ s = "" := by
  constructor
  · intro h
    have hd : (pyLower s).data = ("" : String).data := congrArg String.data h
    rw [pyLower_data] at hd
    have hnil : s.data = [] := List.map_eq_nil_iff.mp hd
    cases s with
    | mk d =>
      have hd2 : d = [] := hnil
      subst hd2
      rfl
  · intro h; subst h; rfl

/-! ### Helper lemmas: lists -/

theorem set_of_getElem? {α : Type _} :
    ∀ (l : List α) (i : Nat) (a : α), l[i]? = some a → l.set i a = l
  | [], _, _, h => by simp at h
  | b :: bs, 0, a, h => by
    simp only [List.getElem?_cons_zero, Option.some.injEq] at h
    simp [h]
  | b :: bs, i + 1, a, h => by
    simp only [List.getElem?_cons_succ] at h
    simp [set_of_getElem? bs i a h]

theorem lowerRowAt_getD_self {r : List (Option String)} {i : Nat} (h : i < r.length) :
    (lowerRowAt i r).getD i none = some (pyLower (pyStr (r.getD i none))) := by
  unfold lowerRowAt
  rw [List.getD_eq_getElem?_getD, List.getElem?_set_self h]
  rfl

theorem lowerRowAt_getD_ne {r : List (Option String)} {i j : Nat} (h : j ≠ i) :
    (lowerRowAt i r).getD j none = r.getD j none := by
  unfold lowerRowAt
  rw [List.getD_eq_getElem?_getD, List.getElem?_set_ne (fun he => h he.symm),
    ← List.getD_eq_getElem?_getD]

theorem lowerRowAts_nil (r : List (Option String)) : lowerRowAts [] r = r := rfl

theorem lowerRowAts_cons (i : Nat) (ps : List Nat) (r : List (Option String)) :
    lowerRowAts (i :: ps) r = lowerRowAts ps (lowerRowAt i r) := rfl

theorem lowerRowAts_append (ps qs : List Nat) (r : List (Option String)) :
    lowerRowAts (ps ++ qs) r = lowerRowAts qs (lowerRowAts ps r) :=
  List.foldl_append _ _ _ _

theorem set_of_length_le {α : Type _} :
    ∀ (l : List α) (i : Nat) (a : α), l.length ≤ i → l.set i a = l
  | [], _, _, _ => rfl
  | _ :: _, 0, _, h => by simp at h
  | b :: bs, i + 1, a, h => by
    show b :: bs.set i a = b :: bs
    rw [set_of_length_le bs i a (by simpa using h)]

theorem lowerRowAt_getD_cases (i : Nat) (r : List (Option String)) (j : Nat) :
    (lowerRowAt i r).getD j none = r.getD j none
    ∨ (lowerRowAt i r).getD j none = some (pyLower (pyStr (r.getD j none))) := by
  by_cases hji : j = i
  · subst hji
    by_cases hlt : j < r.length
    · exact Or.inr (lowerRowAt_getD_self hlt)
    · left
      unfold lowerRowAt
      rw [set_of_length_le r j _ (by omega)]
  · exact Or.inl (lowerRowAt_getD_ne hji)

theorem lowerRowAts_getD_cases (ps : List Nat) :
    ∀ (r : List (Option String)) (j : Nat),
      (lowerRowAts ps r).getD j none = r.getD j none
      ∨ (lowerRowAts ps r).getD j none = some (pyLower (pyStr (r.getD j none))) := by
  induction ps with
  | nil => intro r j; exact Or.inl rfl
  | cons i ps ih =>
    intro r j
    rw [lowerRowAts_cons]
    rcases ih (lowerRowAt i r) j with h | h
    · rcases lowerRowAt_getD_cases i r j with h2 | h2
      · exact Or.inl (h.trans h2)
      · exact Or.inr (h.trans h2)
    · rcases lowerRowAt_getD_cases i r j with h2 | h2
      · right
        rw [h, h2]
      · right
        rw [h, h2]
        show some (pyLower (pyLower (pyStr (r.getD j none))))
          = some (pyLower (pyStr (r.getD j none)))
        rw [pyLower_idem]

theorem lowerRowAts_getD_not_mem (ps : List Nat) :
    ∀ (r : List (Option String)) (j : Nat), j ∉ ps →
      (lowerRowAts ps r).getD j none = r.getD j none := by
  induction ps with
  | nil => intro r j _; rfl
  | cons i ps ih =>
    intro r j hj
    rw [lowerRowAts_cons]
    have hji : j ≠ i := fun h => hj (h ▸ List.mem_cons_self i ps)
    rw [ih (lowerRowAt i r) j (fun h => hj (List.mem_cons_of_mem i h))]
    exact lowerRowAt_getD_ne hji

/-! ### Helper lemmas: column lookup and column preservation -/

theorem colIdx_lt_length {df : Table} {c : String} {i : Nat} (h : colIdx df c = some i) :
    i < df.cols.length :=
  (List.findIdx?_eq_some_iff_findIdx_eq.mp h).1

theorem applyConstraint_cols (df : Table) (i : Nat) (v : FilterVal) :
    (applyConstraint df i v).cols = df.cols := rfl

theorem searchStep_cols (df : Table) (cs q : Option String) (e : Bool) :
    (searchStep df cs q e).cols = df.cols := by
  unfold searchStep
  repeat' split
  all_goals rfl

theorem filterSteps_cols (fs : List (String × FilterVal)) :
    ∀ df : Table, ((filterSteps df fs).1).cols = df.cols := by
  induction fs with
  | nil => intro df; rfl
  | cons hd tl ih =>
    intro df
    obtain ⟨c, v⟩ := hd
    simp only [filterSteps]
    by_cases hv : isEmptyFilter v
    · rw [if_pos hv]; exact ih df
    · rw [if_neg hv]
      cases hc : colIdx df c with
      | none => exact ih df
      | some i =>
        by_cases he : (applyConstraint df i v).rows.isEmpty
        · simp only [he, if_true]; rfl
        · simp only [he]
          simp only [Bool.false_eq_true, if_false]
          exact ih (applyConstraint df i v)

/-! ### Helper lemmas: structure of the filter loop -/

theorem filterSteps_cons_skip {v : FilterVal} (hv : isEmptyFilter v = true)
    (df : Table) (c : String) (rest : List (String × FilterVal)) :
    filterSteps df ((c, v) :: rest) = filterSteps df rest := by
  simp only [filterSteps, hv, if_true]

theorem filterSteps_cons_missing {v : FilterVal} {df : Table} {c : String}
    (hv : isEmptyFilter v = false) (hc : colIdx df c = none)
    (rest : List (String × FilterVal)) :
    filterSteps df ((c, v) :: rest) = filterSteps df rest := by
  simp only [filterSteps, hv, Bool.false_eq_true, if_false, hc]

theorem filterSteps_cons_applied {v : FilterVal} {df : Table} {c : String} {i : Nat}
    (hv : isEmptyFilter v = false) (hc : colIdx df c = some i)
    (rest : List (String × FilterVal)) :
    filterSteps df ((c, v) :: rest) =
      if (applyConstraint df i v).rows.isEmpty then (applyConstraint df i v, true)
      else filterSteps (applyConstraint df i v) rest := by
  simp only [filterSteps, hv, Bool.false_eq_true, if_false, hc]

theorem filterSteps_append_early {pre : List (String × FilterVal)} :
    ∀ {df : Table}, (filterSteps df pre).2 = true →
      ∀ rest, filterSteps df (pre ++ rest) = filterSteps df pre := by
  induction pre with
  | nil => intro df h rest; simp [filterSteps] at h
  | cons hd tl ih =>
    intro df h rest
    obtain ⟨c, v⟩ := hd
    rw [List.cons_append]
    by_cases hv : isEmptyFilter v = true
    · rw [filterSteps_cons_skip hv df c (tl ++ rest), filterSteps_cons_skip hv df c tl]
      rw [filterSteps_cons_skip hv df c tl] at h
      exact ih h rest
    · have hv2 : isEmptyFilter v = false := by
        cases hb : isEmptyFilter v
        · rfl
        · exact absurd hb hv
      cases hc : colIdx df c with
      | none =>
        rw [filterSteps_cons_missing hv2 hc (tl ++ rest), filterSteps_cons_missing hv2 hc tl]
        rw [filterSteps_cons_missing hv2 hc tl] at h
        exact ih h rest
      | some i =>
        rw [filterSteps_cons_applied hv2 hc (tl ++ rest), filterSteps_cons_applied hv2 hc tl]
        rw [filterSteps_cons_applied hv2 hc tl] at h
        by_cases he : (applyConstraint df i v).rows.isEmpty = true
        · rw [if_pos he, if_pos he]
        · rw [if_neg he, if_neg he]
          rw [if_neg he] at h
          exact ih h rest

theorem filterSteps_append_cont {pre : List (String × FilterVal)} :
    ∀ {df : Table}, (filterSteps df pre).2 = false →
      ∀ rest, filterSteps df (pre ++ rest) = filterSteps (filterSteps df pre).1 rest := by
  induction pre with
  | nil => intro df h rest; rfl
  | cons hd tl ih =>
    intro df h rest
    obtain ⟨c, v⟩ := hd
    rw [List.cons_append]
    by_cases hv : isEmptyFilter v = true
    · rw [filterSteps_cons_skip hv df c (tl ++ rest), filterSteps_cons_skip hv df c tl]
      rw [filterSteps_cons_skip hv df c tl] at h
      exact ih h rest
    · have hv2 : isEmptyFilter v = false := by
        cases hb : isEmptyFilter v
        · rfl
        · exact absurd hb hv
      cases hc : colIdx df c with
      | none =>
        rw [filterSteps_cons_missing hv2 hc (tl ++ rest), filterSteps_cons_missing hv2 hc tl]
        rw [filterSteps_cons_missing hv2 hc tl] at h
        exact ih h rest
      | some i =>
        rw [filterSteps_cons_applied hv2 hc (tl ++ rest), filterSteps_cons_applied hv2 hc tl]
        rw [filterSteps_cons_applied hv2 hc tl] at h
        by_cases he : (applyConstraint df i v).rows.isEmpty = true
        · rw [if_pos he] at h
          exact absurd h (by simp)
        · rw [if_neg he, if_neg he]
          rw [if_neg he] at h
          exact ih h rest

theorem filter_data_of_early {df : Table} {fs : List (String × FilterVal)}
    (h : (filterSteps df fs).2 = true) (cs q : Option String) (e : Bool) :
    filter_data df fs cs q e = (filterSteps df fs).1 := by
  unfold filter_data
  rw [if_pos h]

theorem filter_data_of_cont {df : Table} {fs : List (String × FilterVal)}
    (h : (filterSteps df fs).2 = false) (cs q : Option String) (e : Bool) :
    filter_data df fs cs q e = searchStep (filterSteps df fs).1 cs q e := by
  unfold filter_data
  simp only [h, Bool.false_eq_true, if_false]

theorem searchStep_none_col (df : Table) (q : Option String) (e : Bool) :
    searchStep df none q e = df := rfl

theorem searchStep_none_query (df : Table) (cs : Option String) (e : Bool) :
    searchStep df cs none e = df := by
  cases cs <;> rfl

theorem searchStep_empty_query (df : Table) (cs : Option String) (e : Bool) :
    searchStep df cs (some "") e = df := by
  cases cs with
  | none => rfl
  | some c =>
    have h0 : (c.isEmpty || ("" : String).isEmpty) = true := by
      rw [show ("" : String).isEmpty = true from rfl, Bool.or_true]
    simp only [searchStep, h0, if_true]

theorem filterSteps_single_applied {df : Table} {c : String} {v : FilterVal} {i : Nat}
    (hv : isEmptyFilter v = false) (hi : colIdx df c = some i) :
    filterSteps df [(c, v)] =
      (applyConstraint df i v, (applyConstraint df i v).rows.isEmpty) := by
  simp only [filterSteps, hv, Bool.false_eq_true, if_false, hi]
  cases he : (applyConstraint df i v).rows.isEmpty with
  | true => rfl
  | false => rfl

theorem filter_data_single {df : Table} {c : String} {v : FilterVal} {i : Nat}
    (hv : isEmptyFilter v = false) (hi : colIdx df c = some i) (e : Bool) :
    filter_data df [(c, v)] none none e = applyConstraint df i v := by
  unfold filter_data
  rw [filterSteps_single_applied hv hi]
  cases he : (applyConstraint df i v).rows.isEmpty with
  | true => rfl
  | false => rfl

/-! ### Helper lemmas: the rows of every result are transformed input rows -/

theorem applyConstraint_rows_sublist (df : Table) (i : Nat) (v : FilterVal) :
    (applyConstraint df i v).rows.Sublist (df.rows.map (lowerRowAt i)) :=
  List.filter_sublist _

theorem map_lowerRowAts_nil (l : List (List (Option String))) :
    l.map (lowerRowAts []) = l :=
  (List.map_congr_left fun _ _ => rfl).trans (List.map_id l)

theorem sublist_map_lowerRowAts_nil (l : List (List (Option String))) :
    l.Sublist (l.map (lowerRowAts [])) := by
  rw [map_lowerRowAts_nil]

theorem filterSteps_rows_sublist (fs : List (String × FilterVal)) :
    ∀ df : Table, ∃ ps : List Nat,
      ((filterSteps df fs).1).rows.Sublist (df.rows.map (lowerRowAts ps)) := by
  induction fs with
  | nil =>
    intro df
    exact ⟨[], sublist_map_lowerRowAts_nil df.rows⟩
  | cons hd tl ih =>
    intro df
    obtain ⟨c, v⟩ := hd
    by_cases hv : isEmptyFilter v = true
    · rw [filterSteps_cons_skip hv df c tl]
      exact ih df
    · have hv2 : isEmptyFilter v = false := by
        cases hb : isEmptyFilter v
        · rfl
        · exact absurd hb hv
      cases hc : colIdx df c with
      | none =>
        rw [filterSteps_cons_missing hv2 hc tl]
        exact ih df
      | some i =>
        rw [filterSteps_cons_applied hv2 hc tl]
        by_cases he : (applyConstraint df i v).rows.isEmpty = true
        · rw [if_pos he]
          refine ⟨[], ?_⟩
          show (applyConstraint df i v).rows.Sublist (df.rows.map (lowerRowAts []))
          rw [List.isEmpty_iff.mp he]
          exact List.nil_sublist _
        · rw [if_neg he]
          obtain ⟨ps, hps⟩ := ih (applyConstraint df i v)
          refine ⟨i :: ps, ?_⟩
          have h2 : (applyConstraint df i v).rows.Sublist (df.rows.map (lowerRowAt i)) :=
            applyConstraint_rows_sublist df i v
          have h3 := h2.map (lowerRowAts ps)
          have h4 : ((df.rows.map (lowerRowAt i)).map (lowerRowAts ps))
              = df.rows.map (lowerRowAts (i :: ps)) := by
            rw [List.map_map]; rfl
          rw [h4] at h3
          exact hps.trans h3

theorem searchStep_rows_sublist (df : Table) (cs q : Option String) (e : Bool) :
    ∃ ps : List Nat,
      (searchStep df cs q e).rows.Sublist (df.rows.map (lowerRowAts ps)) := by
  cases cs with
  | none => exact ⟨[], sublist_map_lowerRowAts_nil df.rows⟩
  | some c =>
    cases q with
    | none =>
      rw [searchStep_none_query]
      exact ⟨[], sublist_map_lowerRowAts_nil df.rows⟩
    | some qs =>
      simp only [searchStep]
      cases h0 : c.isEmpty || qs.isEmpty with
      | true =>
        simp only [if_true]
        exact ⟨[], sublist_map_lowerRowAts_nil df.rows⟩
      | false =>
        simp only [Bool.false_eq_true, if_false]
        cases hc : colIdx df c with
        | none => exact ⟨[], sublist_map_lowerRowAts_nil df.rows⟩
        | some i =>
          refine ⟨[i], ?_⟩
          have hmap : df.rows.map (lowerRowAts [i]) = df.rows.map (lowerRowAt i) :=
            List.map_congr_left fun _ _ => rfl
          rw [hmap]
          cases e with
          | true => exact List.filter_sublist _
          | false => exact List.filter_sublist _

theorem filter_data_rows_sublist (df : Table) (fs : List (String × FilterVal))
    (cs q : Option String) (e : Bool) :
    ∃ ps : List Nat,
      (filter_data df fs cs q e).rows.Sublist (df.rows.map (lowerRowAts ps)) := by
  cases hp : (filterSteps df fs).2 with
  | true =>
    rw [filter_data_of_early hp cs q e]
    exact filterSteps_rows_sublist fs df
  | false =>
    rw [filter_data_of_cont hp cs q e]
    obtain ⟨ps1, h1⟩ := filterSteps_rows_sublist fs df
    obtain ⟨ps2, h2⟩ := searchStep_rows_sublist (filterSteps df fs).1 cs q e
    refine ⟨ps1 ++ ps2, ?_⟩
    have h3 := h1.map (lowerRowAts ps2)
    have h4 : (df.rows.map (lowerRowAts ps1)).map (lowerRowAts ps2)
        = df.rows.map (lowerRowAts (ps1 ++ ps2)) := by
      rw [List.map_map]
      exact List.map_congr_left fun r _ => (lowerRowAts_append ps1 ps2 r).symm
    rw [h4] at h3
    exact h2.trans h3

theorem filter_data_single_noop {df : Table} {c : String} {fv : FilterVal} {e : Bool}
    (h : isEmptyFilter fv = true ∨ colIdx df c = none) :
    filter_data df [(c, fv)] none none e = df := by
  have hsteps : filterSteps df [(c, fv)] = (df, false) := by
    rcases h with hv | hc
    · rw [filterSteps_cons_skip hv df c []]; rfl
    · cases hb : isEmptyFilter fv with
      | true => rw [filterSteps_cons_skip hb df c []]; rfl
      | false => rw [filterSteps_cons_missing hb hc []]; rfl
  unfold filter_data
  rw [hsteps]
  rfl

/-! ### Claim theorems -/

/-- C6: filtering any table with an empty filter specification and no search
specification returns the input table unchanged: same rows, same cell values,
same order. -/
theorem claim_c6 (df : Table) (e : Bool) : filter_data df [] none none e = df := rfl

/-- C10: a search column together with a null (`None`) or empty-string query
behaves exactly like no search specification at all: the search step is
disabled entirely, so an EXACT-mode search for the empty string cannot be
expressed through this interface. -/
theorem claim_c10 (df : Table) (fs : List (String × FilterVal)) (c : String) (e : Bool) :
    filter_data df fs (some c) none e = filter_data df fs none none e
    ∧ filter_data df fs (some c) (some "") e = filter_data df fs none none e := by
  cases hp : (filterSteps df fs).2 with
  | true =>
    rw [filter_data_of_early hp (some c) none e,
      filter_data_of_early hp (some c) (some "") e,
      filter_data_of_early hp none none e]
    exact ⟨rfl, rfl⟩
  | false =>
    rw [filter_data_of_cont hp (some c) none e,
      filter_data_of_cont hp (some c) (some "") e,
      filter_data_of_cont hp none none e]
    rw [searchStep_none_query, searchStep_empty_query, searchStep_none_col]
    exact ⟨rfl, rfl⟩

/-- C5: if, after the (possibly empty) prefix of the filter specification has
run without exhausting the table, the next applied column constraint leaves
zero rows, then `filter_data` returns that empty working table immediately:
the remaining filter entries and the search specification are never applied,
and the overall result has no rows. -/
theorem claim_c5 (df : Table) (pre post : List (String × FilterVal)) (c : String)
    (v : FilterVal) (i : Nat) (cs q : Option String) (e : Bool)
    (h0 : (filterSteps df pre).2 = false)
    (hv : isEmptyFilter v = false)
    (hi : colIdx (filterSteps df pre).1 c = some i)
    (hz : (applyConstraint (filterSteps df pre).1 i v).rows = []) :
    filter_data df (pre ++ (c, v) :: post) cs q e
      = applyConstraint (filterSteps df pre).1 i v
    ∧ (filter_data df (pre ++ (c, v) :: post) cs q e).rows = [] := by
  have hsteps : filterSteps df (pre ++ (c, v) :: post)
      = (applyConstraint (filterSteps df pre).1 i v, true) := by
    rw [filterSteps_append_cont h0]
    rw [filterSteps_cons_applied hv hi post]
    rw [if_pos (List.isEmpty_iff.mpr hz)]
  have h1 : filter_data df (pre ++ (c, v) :: post) cs q e
      = applyConstraint (filterSteps df pre).1 i v := by
    rw [filter_data_of_early (by rw [hsteps]) cs q e, hsteps]
  exact ⟨h1, by rw [h1, hz]⟩

/-- C5 witness: a concrete run in which the first constraint empties the
table, a second filter entry and a search specification are present, and the
result is exactly the empty table produced by the first constraint. -/
theorem claim_c5_wit :
    filter_data ⟨["a"], [[some "x"]]⟩
        [("a", FilterVal.vstr "zz"), ("a", FilterVal.vstr "x")]
        (some "a") (some "x") false
      = applyConstraint (filterSteps ⟨["a"], [[some "x"]]⟩ []).1 0 (FilterVal.vstr "zz")
    ∧ (filter_data ⟨["a"], [[some "x"]]⟩
        [("a", FilterVal.vstr "zz"), ("a", FilterVal.vstr "x")]
        (some "a") (some "x") false).rows = [] :=
  claim_c5 ⟨["a"], [[some "x"]]⟩ [] [("a", FilterVal.vstr "x")] "a"
    (FilterVal.vstr "zz") 0 (some "a") (some "x") false
    (by decide) (by decide) (by decide) (by decide)

/-- C7: a filter entry whose constraint is null, an empty string or an empty
collection, or whose column does not exist in the table, is skipped without
error: the result equals the result of filtering with that entry removed from
the specification. -/
theorem claim_c7 (df : Table) (pre post : List (String × FilterVal)) (c : String)
    (v : FilterVal) (cs q : Option String) (e : Bool)
    (h : isEmptyFilter v = true ∨ colIdx df c = none) :
    filter_data df (pre ++ (c, v) :: post) cs q e
      = filter_data df (pre ++ post) cs q e := by
  have key : filterSteps df (pre ++ (c, v) :: post) = filterSteps df (pre ++ post) := by
    cases hp : (filterSteps df pre).2 with
    | true => rw [filterSteps_append_early hp, filterSteps_append_early hp]
    | false =>
      rw [filterSteps_append_cont hp, filterSteps_append_cont hp]
      rcases h with hv | hc
      · rw [filterSteps_cons_skip hv]
      · have hcols := filterSteps_cols pre df
        have hc2 : colIdx (filterSteps df pre).1 c = none := by
          unfold colIdx at hc ⊢
          rw [hcols]
          exact hc
        cases hb : isEmptyFilter v with
        | true => rw [filterSteps_cons_skip hb]
        | false => rw [filterSteps_cons_missing hb hc2]
  unfold filter_data
  rw [key]

/-- C7 witness: filtering by a column absent from the table (here `"b"`) is
a no-op, and likewise dropping the entry gives the same result. -/
theorem claim_c7_wit :
    filter_data ⟨["a"], [[some "x"]]⟩ [("b", FilterVal.vstr "q")] none none true
      = filter_data ⟨["a"], [[some "x"]]⟩ [] none none true :=
  claim_c7 ⟨["a"], [[some "x"]]⟩ [] [] "b" (FilterVal.vstr "q") none none true
    (Or.inr (by decide))

/-- C4: filtering is case-insensitive.  Constraints whose lowercase forms
agree produce identical result tables (scalar and collection constraints
alike); with an applied scalar constraint, a row is kept exactly when the
lowercase form of its (stringified) cell equals the lowercase constraint;
and with an applied collection constraint, a row is kept exactly when the
lowercase form of its (stringified) cell is a member of the lowercase value
set of the constraint.  In each direction: every matching row survives (as
its column-lowercased transform), and every surviving row arises that way
with its cell satisfying the criterion. -/
theorem claim_c4 (df : Table) (c : String) (v w : String) (vs ws : List String)
    (i : Nat) (hvw : pyLower v = pyLower w) (hls : vs.map pyLower = ws.map pyLower) :
    (filter_data df [(c, FilterVal.vstr v)] none none true
        = filter_data df [(c, FilterVal.vstr w)] none none true)
    ∧ (filter_data df [(c, FilterVal.vlist vs)] none none true
        = filter_data df [(c, FilterVal.vlist ws)] none none true)
    ∧ (∀ r, r ∈ df.rows → r.length = df.cols.length → colIdx df c = some i →
        v ≠ "" → pyLower (pyStr (r.getD i none)) = pyLower v →
        lowerRowAt i r ∈ (filter_data df [(c, FilterVal.vstr v)] none none true).rows)
    ∧ (∀ s, colIdx df c = some i → v ≠ "" →
        s ∈ (filter_data df [(c, FilterVal.vstr v)] none none true).rows →
        ∃ r, r ∈ df.rows ∧ s = lowerRowAt i r ∧ s.getD i none = some (pyLower v))
    ∧ (∀ r, r ∈ df.rows → r.length = df.cols.length → colIdx df c = some i →
        vs ≠ [] → pyLower (pyStr (r.getD i none)) ∈ vs.map pyLower →
        lowerRowAt i r ∈ (filter_data df [(c, FilterVal.vlist vs)] none none true).rows)
    ∧ (∀ s, colIdx df c = some i → vs ≠ [] →
        s ∈ (filter_data df [(c, FilterVal.vlist vs)] none none true).rows →
        ∃ r, r ∈ df.rows ∧ s = lowerRowAt i r
          ∧ ∃ u, s.getD i none = some u ∧ u ∈ vs.map pyLower) := by
  refine ⟨?_, ?_, ?_, ?_, ?_, ?_⟩
  · by_cases hv0 : v = ""
    · have hw0 : w = "" := by
        apply (pyLower_eq_empty_iff w).mp
        rw [← hvw, hv0]
        rfl
      subst hv0; subst hw0; rfl
    · have hw0 : w ≠ "" := by
        intro h0
        apply hv0
        apply (pyLower_eq_empty_iff v).mp
        rw [hvw, h0]
        rfl
      have hveq : isEmptyFilter (FilterVal.vstr v) = false := beq_eq_false_iff_ne.mpr hv0
      have hweq : isEmptyFilter (FilterVal.vstr w) = false := beq_eq_false_iff_ne.mpr hw0
      cases hc : colIdx df c with
      | none =>
        rw [filter_data_single_noop (Or.inr hc), filter_data_single_noop (Or.inr hc)]
      | some j =>
        rw [filter_data_single hveq hc true, filter_data_single hweq hc true]
        simp only [applyConstraint, cellMatches, hvw]
  · by_cases hl0 : vs = []
    · have hlen : vs.length = ws.length := by
        have := congrArg List.length hls
        simpa using this
      have hw0 : ws = [] := by
        rw [hl0] at hlen
        exact (List.length_eq_zero.mp hlen.symm)
      subst hl0; subst hw0; rfl
    · have hlen : vs.length = ws.length := by
        have := congrArg List.length hls
        simpa using this
      have hw0 : ws ≠ [] := by
        intro h0
        apply hl0
        rw [h0] at hlen
        exact List.length_eq_zero.mp hlen
      have hveq : isEmptyFilter (FilterVal.vlist vs) = false := by
        show vs.isEmpty = false
        simpa using hl0
      have hweq : isEmptyFilter (FilterVal.vlist ws) = false := by
        show ws.isEmpty = false
        simpa using hw0
      cases hc : colIdx df c with
      | none =>
        rw [filter_data_single_noop (Or.inr hc), filter_data_single_noop (Or.inr hc)]
      | some j =>
        rw [filter_data_single hveq hc true, filter_data_single hweq hc true]
        simp only [applyConstraint, cellMatches, hls]
  · intro r hr hlen hi2 hv0 hmatch
    have hveq : isEmptyFilter (FilterVal.vstr v) = false := beq_eq_false_iff_ne.mpr hv0
    rw [filter_data_single hveq hi2 true]
    show lowerRowAt i r ∈ ((df.rows.map (lowerRowAt i)).filter
      (fun x => cellMatches (FilterVal.vstr v) (x.getD i none)))
    apply List.mem_filter.mpr
    refine ⟨List.mem_map_of_mem _ hr, ?_⟩
    have hlt : i < r.length := by
      rw [hlen]
      exact colIdx_lt_length hi2
    show ((lowerRowAt i r).getD i none == some (pyLower v)) = true
    rw [lowerRowAt_getD_self hlt, hmatch]
    exact beq_self_eq_true _
  · intro s hi2 hv0 hs
    have hveq : isEmptyFilter (FilterVal.vstr v) = false := beq_eq_false_iff_ne.mpr hv0
    rw [filter_data_single hveq hi2 true] at hs
    have hs2 : s ∈ ((df.rows.map (lowerRowAt i)).filter
        (fun x => cellMatches (FilterVal.vstr v) (x.getD i none))) := hs
    obtain ⟨hmem, hp⟩ := List.mem_filter.mp hs2
    obtain ⟨r, hr, hrs⟩ := List.mem_map.mp hmem
    refine ⟨r, hr, hrs.symm, ?_⟩
    have hp2 : (s.getD i none == some (pyLower v)) = true := hp
    exact beq_iff_eq.mp hp2
  · intro r hr hlen hi2 hv0 hmem
    have hveq : isEmptyFilter (FilterVal.vlist vs) = false := by
      show vs.isEmpty = false
      simpa using hv0
    rw [filter_data_single hveq hi2 true]
    show lowerRowAt i r ∈ ((df.rows.map (lowerRowAt i)).filter
      (fun x => cellMatches (FilterVal.vlist vs) (x.getD i none)))
    apply List.mem_filter.mpr
    refine ⟨List.mem_map_of_mem _ hr, ?_⟩
    have hlt : i < r.length := by
      rw [hlen]
      exact colIdx_lt_length hi2
    show cellMatches (FilterVal.vlist vs) ((lowerRowAt i r).getD i none) = true
    rw [lowerRowAt_getD_self hlt]
    show ((vs.map pyLower).contains (pyLower (pyStr (r.getD i none)))) = true
    simpa using hmem
  · intro s hi2 hv0 hs
    have hveq : isEmptyFilter (FilterVal.vlist vs) = false := by
      show vs.isEmpty = false
      simpa using hv0
    rw [filter_data_single hveq hi2 true] at hs
    have hs2 : s ∈ ((df.rows.map (lowerRowAt i)).filter
        (fun x => cellMatches (FilterVal.vlist vs) (x.getD i none))) := hs
    obtain ⟨hmem, hp⟩ := List.mem_filter.mp hs2
    obtain ⟨r, hr, hrs⟩ := List.mem_map.mp hmem
    have hp0 : cellMatches (FilterVal.vlist vs) (s.getD i none) = true := hp
    cases hcell : s.getD i none with
    | none =>
      rw [hcell] at hp0
      exact absurd (show (false : Bool) = true from hp0) (by decide)
    | some u =>
      rw [hcell] at hp0
      have hp2 : ((vs.map pyLower).contains u) = true := hp0
      exact ⟨r, hr, hrs.symm, u, rfl, by simpa using hp2⟩

/-- C4 witness: the scalar constraints `"ABC"` and `"abc"` give identical
results on a table whose column holds `"AbC"`; that row (column-lowercased)
is kept by the scalar constraint `"ABC"` and also by the collection
constraint `["ABC"]`, whose lowercase value set contains the lowercase form
of the cell. -/
theorem claim_c4_wit :
    filter_data ⟨["c"], [[some "AbC"]]⟩ [("c", FilterVal.vstr "ABC")] none none true
      = filter_data ⟨["c"], [[some "AbC"]]⟩ [("c", FilterVal.vstr "abc")] none none true
    ∧ lowerRowAt 0 [some "AbC"]
        ∈ (filter_data ⟨["c"], [[some "AbC"]]⟩
            [("c", FilterVal.vstr "ABC")] none none true).rows
    ∧ lowerRowAt 0 [some "AbC"]
        ∈ (filter_data ⟨["c"], [[some "AbC"]]⟩
            [("c", FilterVal.vlist ["ABC"])] none none true).rows :=
  ⟨(claim_c4 ⟨["c"], [[some "AbC"]]⟩ "c" "ABC" "abc" ["ABC"] ["abc"] 0 (by decide)
      (by decide)).1,
    (claim_c4 ⟨["c"], [[some "AbC"]]⟩ "c" "ABC" "abc" ["ABC"] ["abc"] 0 (by decide)
      (by decide)).2.2.1 [some "AbC"] (by decide) (by decide) (by decide)
      (by decide) (by decide),
    (claim_c4 ⟨["c"], [[some "AbC"]]⟩ "c" "ABC" "abc" ["ABC"] ["abc"] 0 (by decide)
      (by decide)).2.2.2.2.1 [some "AbC"] (by decide) (by decide) (by decide)
      (by decide) (by decide)⟩

/-- C1 counterexample: the lowercase normalization is visible in the output.
Filtering the table with cell `"AbC"` by the constraint `"abc"` keeps the
row, but the returned cell reads `"abc"`, not the original `"AbC"`. -/
theorem claim_c1_cex :
    (filter_data ⟨["c"], [[some "AbC"]]⟩ [("c", FilterVal.vstr "abc")]
        none none true).rows = [[some "abc"]]
    ∧ (⟨["c"], [[some "AbC"]]⟩ : Table).rows = [[some "AbC"]]
    ∧ ("abc" : String) ≠ "AbC" := by decide

/-- C1 (amended): the normalization is local to the working copy but visible
in the output.  For every input table, filter specification and search
specification there is a set `ps` of column positions (the columns the
applied constraints and the search actually touched) such that every kept
row is an input row transformed by `lowerRowAts ps`; that transform leaves
every cell at a position outside `ps` character-for-character identical to
the input cell, and every cell it does change carries the lowercase string
form of the input cell. -/
theorem claim_c1_thm (df : Table) (fs : List (String × FilterVal))
    (cs q : Option String) (e : Bool) :
    ∃ ps : List Nat,
      (filter_data df fs cs q e).rows.Sublist (df.rows.map (lowerRowAts ps))
      ∧ (∀ r : List (Option String), ∀ j, j ∉ ps →
          (lowerRowAts ps r).getD j none = r.getD j none)
      ∧ (∀ r : List (Option String), ∀ j,
          (lowerRowAts ps r).getD j none = r.getD j none
          ∨ (lowerRowAts ps r).getD j none
              = some (pyLower (pyStr (r.getD j none)))) := by
  obtain ⟨ps, hsub⟩ := filter_data_rows_sublist df fs cs q e
  exact ⟨ps, hsub, fun r j hj => lowerRowAts_getD_not_mem ps r j hj,
    fun r j => lowerRowAts_getD_cases ps r j⟩

/-- C8 counterexample: with the empty constraint set the claim fails.  An
empty collection is skipped ("no filter requested"), so filtering by
`S = []` returns the table unchanged, yet re-filtering by the superset
`S' = ["y"]` does filter, shrinking the result. -/
theorem claim_c8_cex :
    filter_data (filter_data ⟨["c"], [[some "x"]]⟩ [("c", FilterVal.vlist [])]
        none none true)
      [("c", FilterVal.vlist ["y"])] none none true
    ≠ filter_data ⟨["c"], [[some "x"]]⟩ [("c", FilterVal.vlist [])] none none true := by
  decide

/-- C8 (amended): for a nonempty constraint set `S` and any superset `S'`,
filtering by `\x7bc: S\x7d` and then re-filtering the result by `\x7bc: S'\x7d` equals
filtering once by `\x7bc: S\x7d`. -/
theorem claim_c8_thm (df : Table) (c : String) (S S' : List String)
    (hS : S ≠ []) (hsub : ∀ x ∈ S, x ∈ S') :
    filter_data (filter_data df [(c, FilterVal.vlist S)] none none true)
        [(c, FilterVal.vlist S')] none none true
      = filter_data df [(c, FilterVal.vlist S)] none none true := by
  have hvS : isEmptyFilter (FilterVal.vlist S) = false := by
    show S.isEmpty = false
    simpa using hS
  have hS2 : S' ≠ [] := by
    obtain ⟨x, hx⟩ : ∃ x, x ∈ S := by
      cases S with
      | nil => exact absurd rfl hS
      | cons a as => exact ⟨a, List.mem_cons_self a as⟩
    intro h0
    exact List.not_mem_nil x (h0 ▸ hsub x hx)
  have hvS2 : isEmptyFilter (FilterVal.vlist S') = false := by
    show S'.isEmpty = false
    simpa using hS2
  cases hc : colIdx df c with
  | none =>
    rw [filter_data_single_noop (Or.inr hc), filter_data_single_noop (Or.inr hc)]
  | some i =>
    rw [filter_data_single hvS hc true]
    have hc2 : colIdx (applyConstraint df i (FilterVal.vlist S)) c = some i := hc
    rw [filter_data_single hvS2 hc2 true]
    have hrow : ∀ s ∈ (applyConstraint df i (FilterVal.vlist S)).rows,
        ∃ u, s.getD i none = some u ∧ u ∈ S.map pyLower := by
      intro s hs
      have hs2 : s ∈ ((df.rows.map (lowerRowAt i)).filter
          (fun x => cellMatches (FilterVal.vlist S) (x.getD i none))) := hs
      have hp := (List.mem_filter.mp hs2).2
      have hp0 : cellMatches (FilterVal.vlist S) (s.getD i none) = true := hp
      cases hcell : s.getD i none with
      | none =>
        rw [hcell] at hp0
        exact absurd (show (false : Bool) = true from hp0) (by decide)
      | some u =>
        rw [hcell] at hp0
        refine ⟨u, rfl, ?_⟩
        have hp2 : ((S.map pyLower).contains u) = true := hp0
        simpa using hp2
    have hfix : ∀ s ∈ (applyConstraint df i (FilterVal.vlist S)).rows,
        lowerRowAt i s = s := by
      intro s hs
      obtain ⟨u, hcell, hu⟩ := hrow s hs
      obtain ⟨x, hxS, hxu⟩ := List.mem_map.mp hu
      have huu : pyLower u = u := by rw [← hxu, pyLower_idem]
      have hsi : s[i]? = some (some u) := by
        rw [List.getD_eq_getElem?_getD] at hcell
        cases hgi : s[i]? with
        | none =>
          rw [hgi] at hcell
          simp at hcell
        | some o =>
          rw [hgi] at hcell
          simp only [Option.getD_some] at hcell
          rw [hcell]
      unfold lowerRowAt
      rw [hcell]
      show s.set i (some (pyLower u)) = s
      rw [huu]
      exact set_of_getElem? s i (some u) hsi
    have hkeep : ∀ s ∈ (applyConstraint df i (FilterVal.vlist S)).rows,
        cellMatches (FilterVal.vlist S') (s.getD i none) = true := by
      intro s hs
      obtain ⟨u, hcell, hu⟩ := hrow s hs
      obtain ⟨x, hxS, hxu⟩ := List.mem_map.mp hu
      have hu2 : u ∈ S'.map pyLower := by
        rw [← hxu]
        exact List.mem_map_of_mem pyLower (hsub x hxS)
      rw [hcell]
      show ((S'.map pyLower).contains u) = true
      simpa using hu2
    have hmap : (applyConstraint df i (FilterVal.vlist S)).rows.map (lowerRowAt i)
        = (applyConstraint df i (FilterVal.vlist S)).rows :=
      (List.map_congr_left fun s hs => hfix s hs).trans (List.map_id _)
    have hfilter : (applyConstraint df i (FilterVal.vlist S)).rows.filter
          (fun x => cellMatches (FilterVal.vlist S') (x.getD i none))
        = (applyConstraint df i (FilterVal.vlist S)).rows :=
      List.filter_eq_self.mpr hkeep
    show Table.mk (applyConstraint df i (FilterVal.vlist S)).cols
        (((applyConstraint df i (FilterVal.vlist S)).rows.map
            (lowerRowAt i)).filter
          (fun x => cellMatches (FilterVal.vlist S') (x.getD i none)))
      = applyConstraint df i (FilterVal.vlist S)
    rw [hmap, hfilter]

/-- C8 witness: re-filtering by the superset `["a", "b"]` of `["a"]` leaves
the once-filtered table unchanged. -/
theorem claim_c8_wit :
    filter_data (filter_data ⟨["c"], [[some "A"], [some "B"]]⟩
        [("c", FilterVal.vlist ["a"])] none none true)
      [("c", FilterVal.vlist ["a", "b"])] none none true
    = filter_data ⟨["c"], [[some "A"], [some "B"]]⟩
        [("c", FilterVal.vlist ["a"])] none none true :=
  claim_c8_thm ⟨["c"], [[some "A"], [some "B"]]⟩ "c" ["a"] ["a", "b"]
    (by decide) (by decide)

/-- C9 counterexample: a kept row need not appear in the input table.  The
only kept row reads `[some "abc"]` after the in-place lowercasing, and no
such row exists in the input. -/
theorem claim_c9_cex :
    [some "abc"] ∈ (filter_data ⟨["d"], [[some "AbC"], [some "x"]]⟩
        [("d", FilterVal.vstr "ABC")] none none true).rows
    ∧ [some "abc"] ∉ (⟨["d"], [[some "AbC"], [some "x"]]⟩ : Table).rows := by
  decide

/-- C9 (amended): the result is an order-preserving selection of the input
rows up to the in-place column lowercasing: the column list is unchanged and
the row list of the result is a sublist (order-preserving, duplicate-free
selection) of the input rows, each transformed by lowercasing some fixed set
of column positions. -/
theorem claim_c9_thm (df : Table) (fs : List (String × FilterVal))
    (cs q : Option String) (e : Bool) :
    (filter_data df fs cs q e).cols = df.cols
    ∧ ∃ ps : List Nat,
        (filter_data df fs cs q e).rows.Sublist (df.rows.map (lowerRowAts ps)) := by
  refine ⟨?_, filter_data_rows_sublist df fs cs q e⟩
  cases hp : (filterSteps df fs).2 with
  | true =>
    rw [filter_data_of_early hp cs q e]
    exact filterSteps_cols fs df
  | false =>
    rw [filter_data_of_cont hp cs q e]
    rw [searchStep_cols]
    exact filterSteps_cols fs df

/-- C2: contrary to the claim, a null cell is not excluded from a CONTAINS
search.  `astype(str)` turns NaN into the text `"nan"` before
`str.contains(..., na=False)` can see a null, so the null row matches the
query `"a"` and is returned (with its cell reading `"nan"`). -/
theorem claim_c2_thm :
    (filter_data ⟨["c"], [[none]]⟩ [] (some "c") (some "a") false).rows
      = [[some "nan"]] := by
  decide

/-- C3 counterexample: on a transport failure `get_cnpj_data` itself does not
return an empty record; the exception raised by `requests.get` propagates out
of the function uncaught. -/
theorem claim_c3_cex :
    get_cnpj_data NetOutcome.transportError = Except.error () := rfl

/-- C3 (amended): on a non-success HTTP response `get_cnpj_data` returns the
empty record and surfaces a warning; on transport failure the exception
escapes `get_cnpj_data` but its sole call site catches every exception and
substitutes the empty record (with a warning), so the guarded fetch always
yields a record — on success, the response body itself. -/
theorem claim_c3_thm (s : Nat) (b b2 : RegistryRecord) (hs : s ≠ 200) :
    get_cnpj_data (NetOutcome.response s b) = Except.ok ([], true)
    ∧ fetch_cnpj_guarded (NetOutcome.response s b) = ([], true)
    ∧ fetch_cnpj_guarded NetOutcome.transportError = ([], true)
    ∧ fetch_cnpj_guarded (NetOutcome.response 200 b2) = (b2, false) := by
  have h1 : get_cnpj_data (NetOutcome.response s b) = Except.ok ([], true) := by
    show (if s = 200 then Except.ok (b, false) else Except.ok ([], true)) = _
    rw [if_neg hs]
  refine ⟨h1, ?_, rfl, rfl⟩
  show (match get_cnpj_data (NetOutcome.response s b) with
    | Except.ok rw => rw
    | Except.error _ => ([], true)) = ([], true)
  rw [h1]

/-- C3 witness: the amended behavior at a concrete non-success status (404),
a transport failure, and a success response. -/
theorem claim_c3_wit :
    get_cnpj_data (NetOutcome.response 404 []) = Except.ok ([], true)
    ∧ fetch_cnpj_guarded (NetOutcome.response 404 []) = ([], true)
    ∧ fetch_cnpj_guarded NetOutcome.transportError = ([], true)
    ∧ fetch_cnpj_guarded (NetOutcome.response 200 [("nome", "X")])
        = ([("nome", "X")], false) :=
  claim_c3_thm 404 [] [("nome", "X")] (by decide)

end EnterpriseSearch
